import Mathlib

/-!
Shallow embedding of the scheduled thread pool from `src/lib.rs`
(`scheduled-thread-pool` crate).

Modelling conventions:
- `Instant` and `Duration` are both `Nat` (a monotonic clock tick count);
  `Instant + Duration` is `Nat` addition, and the subtraction `e.time - now`
  in `get_job` only occurs under the guard `now < e.time`, so truncated `Nat`
  subtraction is exact there.
- Rust closures are modelled by their observable behaviour at one invocation:
  a `CallResult` records whether the closure panicked or returned, and for
  the dynamic variants what `Option<Duration>` it returned.  The closure
  itself is not part of the `Job` data since only its per-invocation result
  affects control flow.
- The shared `Arc<AtomicBool>` cancellation token of a job is modelled by a
  token identifier (`canceled : Nat`) plus a time-indexed history
  `flag : Nat → Bool` giving the token cell's value at each instant; the
  single `job.canceled.load` at the top of `run_job` is the single read of
  this history, at the dispatch instant.
- The `BinaryHeap<Job>` is modelled as a `List Job` (its multiset of
  elements): `push` is `cons`, `peek` selects an element of minimal `time`
  (the heap is a max-heap and `Ord for Job` is reversed, so `peek` yields a
  job of minimal due time; the choice among equal times is unspecified in
  the source, and the model fixes one), `pop` removes that element.
- The mutex and condition variable are not data: every modelled operation is
  the body of one critical section, and `notify_all` calls are returned as a
  `Bool` effect.
-/

/-- The five job variants of `enum JobType`.  The closures are not stored
(see module conventions); only the fixed `rate`/`delay` payloads are. -/
inductive JobType where
  | Once : JobType
  | FixedRate (rate : Nat) : JobType
  | DynamicRate : JobType
  | FixedDelay (delay : Nat) : JobType
  | DynamicDelay : JobType
deriving DecidableEq, Repr

/-- Mirror of `struct Job`: variant, due time and (the identity of) the
shared cancellation token. -/
structure Job where
  type_ : JobType
  time : Nat
  canceled : Nat
deriving DecidableEq, Repr

/-- Mirror of `impl Ord for Job`: `self.time.cmp(&other.time).reverse()`. -/
def Job.cmp (a b : Job) : Ordering :=
  (compare a.time b.time).swap

/-- Mirror of `impl PartialEq for Job`: `self.time == other.time`. -/
def Job.beq (a b : Job) : Bool :=
  a.time == b.time

/-- Mirror of `enum OnPoolDropBehavior`. -/
inductive OnPoolDropBehavior where
  | CompletePendingScheduled : OnPoolDropBehavior
  | DiscardPendingScheduled : OnPoolDropBehavior
  | RunPendingScheduledImmediately : OnPoolDropBehavior
deriving DecidableEq, Repr

/-- Mirror of `struct InnerPool`: the mutex-guarded queue, shutdown flag and
drop policy. -/
structure InnerPool where
  queue : List Job
  shutdown : Bool
  on_drop_behavior : OnPoolDropBehavior
deriving DecidableEq, Repr

/-- Fold step selecting the job with the smaller due time (first wins ties).
Used to model `BinaryHeap::peek`, which returns a maximum under the reversed
`Ord for Job`, i.e. a job of minimal due time. -/
def earlier (a b : Job) : Job :=
  if b.time < a.time then b else a

/-- Model of `BinaryHeap::peek`: some job of minimal due time. -/
def heapPeek : List Job → Option Job
  | [] => none
  | j :: js => some (js.foldl earlier j)

/-- Remove the first occurrence of a job from the list (helper for
`heapPop`). -/
def removeFirst (j : Job) : List Job → List Job
  | [] => []
  | x :: xs => if x = j then xs else x :: removeFirst j xs

/-- Model of `BinaryHeap::pop`: the peeked job together with the remaining
queue. -/
def heapPop (q : List Job) : Option (Job × List Job) :=
  match heapPeek q with
  | none => none
  | some j => some (j, removeFirst j q)

/-- Mirror of `SharedPool::run` (the submission path, one critical section).
Returns the updated inner state and whether `notify_all` was called.
If `shutdown` is set the call returns at once, leaving the state unchanged
and reporting nothing; otherwise it wakes all workers when the queue is
empty or the peeked job is due strictly later than the new one, then pushes
the job. -/
def SharedPool.run (inner : InnerPool) (job : Job) : InnerPool × Bool :=
  if inner.shutdown then
    (inner, false)
  else
    let wake : Bool :=
      match heapPeek inner.queue with
      | none => true
      | some e => decide (job.time < e.time)
    ({ inner with queue := job :: inner.queue }, wake)

/-- The two blocking needs of `Worker::get_job`'s inner `enum Need`, plus
the two ways the loop exits (`return None` and `break`), as one decision
type for a single evaluation of the `match` under the lock. -/
inductive FetchDecision where
  | terminate : FetchDecision
  | wait : FetchDecision
  | waitTimeout (d : Nat) : FetchDecision
  | pop : FetchDecision
deriving DecidableEq, Repr

/-- Mirror of the `match inner.queue.peek()` decision inside
`Worker::get_job`, evaluated once under the lock at instant `now`. -/
def Worker.get_job_decision (inner : InnerPool) (now : Nat) : FetchDecision :=
  match heapPeek inner.queue with
  | none => if inner.shutdown then .terminate else .wait
  | some e =>
    if inner.shutdown && inner.on_drop_behavior == OnPoolDropBehavior.DiscardPendingScheduled then
      .terminate
    else if inner.shutdown && inner.on_drop_behavior == OnPoolDropBehavior.RunPendingScheduledImmediately then
      .pop
    else if e.time ≤ now then
      .pop
    else
      .waitTimeout (e.time - now)

/-- Mirror of the `Worker::get_job` loop.  Each list element is the pair
(inner state, current instant) observed at one iteration: the state after
reacquiring the lock on wake-up, and the fresh `Instant::now()`.  The result
is `none` when the trace ends while the worker is still blocked,
`some none` for `return None` (worker terminates), and `some (some j)` when
the loop breaks and pops job `j`. -/
def Worker.get_job : List (InnerPool × Nat) → Option (Option Job)
  | [] => none
  | (inner, now) :: rest =>
    match Worker.get_job_decision inner now with
    | .terminate => some none
    | .pop => some ((heapPop inner.queue).map (fun p => p.1))
    | .wait => Worker.get_job rest
    | .waitTimeout _ => Worker.get_job rest

/-- Observable behaviour of one closure invocation: it either panics, or
returns (with, for the dynamic variants, the `Option<Duration>` it
produced; the payload is ignored for the unit-returning variants). -/
inductive CallResult where
  | panicked : CallResult
  | returned (d : Option Nat) : CallResult
deriving DecidableEq, Repr

/-- Observable outcome of `Worker::run_job`: whether the closure was
invoked, the successor job passed to `SharedPool::run` (if any), and
whether a panic unwound out of `run_job` (to be caught by
`panic::catch_unwind` in `Worker::run`). -/
structure RunOutcome where
  invoked : Bool
  resubmit : Option Job
  panicked : Bool
deriving DecidableEq, Repr

/-- Mirror of `Worker::run_job`.  `flag` is the history of the job's
cancellation token cell; the single `job.canceled.load` is its value at the
dispatch instant `tDispatch`.  `res` is the behaviour of the closure at this
invocation and `tComplete` is the `Instant::now()` taken after the closure
returns (used by the delay variants).  When the closure panics, execution
unwinds before the successor is built, so nothing is resubmitted. -/
def Worker.run_job (flag : Nat → Bool) (tDispatch tComplete : Nat)
    (res : CallResult) (job : Job) : RunOutcome :=
  if flag tDispatch then
    { invoked := false, resubmit := none, panicked := false }
  else
    match job.type_ with
    | .Once =>
      match res with
      | .panicked => { invoked := true, resubmit := none, panicked := true }
      | .returned _ => { invoked := true, resubmit := none, panicked := false }
    | .FixedRate rate =>
      match res with
      | .panicked => { invoked := true, resubmit := none, panicked := true }
      | .returned _ =>
        { invoked := true
          resubmit := some { type_ := .FixedRate rate, time := job.time + rate,
                             canceled := job.canceled }
          panicked := false }
    | .DynamicRate =>
      match res with
      | .panicked => { invoked := true, resubmit := none, panicked := true }
      | .returned (some next_rate) =>
        { invoked := true
          resubmit := some { type_ := .DynamicRate, time := job.time + next_rate,
                             canceled := job.canceled }
          panicked := false }
      | .returned none => { invoked := true, resubmit := none, panicked := false }
    | .FixedDelay delay =>
      match res with
      | .panicked => { invoked := true, resubmit := none, panicked := true }
      | .returned _ =>
        { invoked := true
          resubmit := some { type_ := .FixedDelay delay, time := tComplete + delay,
                             canceled := job.canceled }
          panicked := false }
    | .DynamicDelay =>
      match res with
      | .panicked => { invoked := true, resubmit := none, panicked := true }
      | .returned (some next_delay) =>
        { invoked := true
          resubmit := some { type_ := .DynamicDelay, time := tComplete + next_delay,
                             canceled := job.canceled }
          panicked := false }
      | .returned none => { invoked := true, resubmit := none, panicked := false }

/-- One fetched job together with the data determining its `run_job` call:
the token history, dispatch and completion instants, and the closure's
behaviour at this invocation. -/
structure Dispatch where
  job : Job
  flag : Nat → Bool
  tDispatch : Nat
  tComplete : Nat
  res : CallResult

/-- Outcome of one dispatch (its `run_job` call). -/
def dispatchOutcome (d : Dispatch) : RunOutcome :=
  Worker.run_job d.flag d.tDispatch d.tComplete d.res d.job

/-- Mirror of the `Worker::run` loop over a trace of fetched jobs:
`while let Some(job) = self.get_job() { let _ = panic::catch_unwind(..) }`.
The `catch_unwind` means every dispatch produces an outcome and the loop
continues to the next fetch whatever that outcome was, the panic flag
included. -/
def Worker.runLoop : List Dispatch → List RunOutcome
  | [] => []
  | d :: ds => dispatchOutcome d :: Worker.runLoop ds

/-- Mirror of `ScheduledThreadPool::new_inner`: `assert!(num_threads > 0)`
is modelled as `none` (the panic); otherwise the fresh `InnerPool` (empty
queue, shutdown false, the given policy) is returned together with the
number of workers spawned by the `for i in 0..num_threads` loop. -/
def ScheduledThreadPool.new_inner (num_threads : Nat)
    (on_drop_behavior : OnPoolDropBehavior) : Option (InnerPool × Nat) :=
  if num_threads = 0 then
    none
  else
    some ({ queue := [], shutdown := false, on_drop_behavior := on_drop_behavior },
          num_threads)

/-- Mirror of `impl Drop for ScheduledThreadPool`: under the lock set
`shutdown = true`, then `notify_all` (returned as the `Bool` effect).
Nothing else happens: the destructor does not join or wait for workers. -/
def ScheduledThreadPool.drop (inner : InnerPool) : InnerPool × Bool :=
  ({ inner with shutdown := true }, true)

/-- Every operation of the source that mutates the shared `InnerPool`:
a submission (`SharedPool::run`), the facade's destructor, and a worker
popping the queue at the end of `get_job`. -/
inductive PoolOp where
  | submit (job : Job) : PoolOp
  | facadeDrop : PoolOp
  | workerPop : PoolOp
deriving DecidableEq, Repr

/-- Effect of one `PoolOp` on the shared state. -/
def applyOp (inner : InnerPool) : PoolOp → InnerPool
  | .submit job => (SharedPool.run inner job).1
  | .facadeDrop => (ScheduledThreadPool.drop inner).1
  | .workerPop =>
    match heapPop inner.queue with
    | none => inner
    | some (_, rest) => { inner with queue := rest }

/-! ### Helper lemmas about the heap model -/

theorem foldl_earlier_spec (js : List Job) (a : Job) :
    js.foldl earlier a ∈ a :: js ∧ (js.foldl earlier a).time ≤ a.time ∧
      ∀ j ∈ js, (js.foldl earlier a).time ≤ j.time := by
  induction js generalizing a with
  | nil => simp
  | cons b js ih =>
    have hmem := (ih (earlier a b)).1
    have hacc := (ih (earlier a b)).2.1
    have hall := (ih (earlier a b)).2.2
    have hea : (earlier a b).time ≤ a.time := by
      unfold earlier; split
      · omega
      · exact Nat.le_refl _
    have heb : (earlier a b).time ≤ b.time := by
      unfold earlier; split
      · exact Nat.le_refl _
      · omega
    refine ⟨?_, ?_, ?_⟩
    · have : (b :: js).foldl earlier a = js.foldl earlier (earlier a b) := rfl
      rw [this]
      rcases List.mem_cons.mp hmem with h | h
    
      · rw [h]
        unfold earlier; split
        · exact List.mem_cons_of_mem _ (List.mem_cons_self _ _)
        · exact List.mem_cons_self _ _
      · exact List.mem_cons_of_mem _ (List.mem_cons_of_mem _ h)
    · exact Nat.le_trans hacc hea
    · intro j hj
      rcases List.mem_cons.mp hj with h | h
      · rw [h]; exact Nat.le_trans hacc heb
      · exact hall j h

theorem heapPeek_mem_min {q : List Job} {e : Job} (h : heapPeek q = some e) :
    e ∈ q ∧ ∀ j ∈ q, e.time ≤ j.time := by
  cases q with
  | nil => simp [heapPeek] at h
  | cons a js =>
    simp only [heapPeek, Option.some.injEq] at h
    subst h
    refine ⟨(foldl_earlier_spec js a).1, ?_⟩
    intro j hj
    rcases List.mem_cons.mp hj with h | h
    · rw [h]; exact (foldl_earlier_spec js a).2.1
    · exact (foldl_earlier_spec js a).2.2 j h

theorem heapPeek_none_iff {q : List Job} : heapPeek q = none ↔ q = [] := by
  cases q <;> simp [heapPeek]

theorem heapPeek_isSome {q : List Job} (h : q ≠ []) :
    ∃ e, heapPeek q = some e := by
  cases hq : heapPeek q with
  | none => exact absurd (heapPeek_none_iff.mp hq) h
  | some e => exact ⟨e, rfl⟩

/-! ### Claim theorems -/

/-- C6: the priority-queue ordering compares by due time only, reversed so
that the earlier-due job ranks greater and hence surfaces first from the
max-heap; no other field participates, and jobs with equal due times
compare equal whatever their variant or token. -/
theorem job_order_by_time_reversed (a b : Job) :
    (a.time < b.time → Job.cmp a b = Ordering.gt) ∧
    (b.time < a.time → Job.cmp a b = Ordering.lt) ∧
    (a.time = b.time → Job.cmp a b = Ordering.eq ∧ Job.beq a b = true) ∧
    (∀ a' b' : Job, a'.time = a.time → b'.time = b.time →
      Job.cmp a' b' = Job.cmp a b ∧ Job.beq a' b' = Job.beq a b) ∧
    (∀ (q : List Job) (e : Job), heapPeek q = some e →
      ∀ j ∈ q, Job.cmp e j ≠ Ordering.lt) := by
  refine ⟨?_, ?_, ?_, ?_, ?_⟩
  · intro h
    simp [Job.cmp, Nat.compare_eq_lt.mpr h, Ordering.swap]
  · intro h
    simp [Job.cmp, Nat.compare_eq_gt.mpr h, Ordering.swap]
  · intro h
    constructor
    · simp [Job.cmp, Nat.compare_eq_eq.mpr h, Ordering.swap]
    · simp [Job.beq, h]
  · intro a' b' ha hb
    constructor
    · simp [Job.cmp, ha, hb]
    · simp [Job.beq, ha, hb]
  · intro q e hq j hj
    have hle := (heapPeek_mem_min hq).2 j hj
    intro hlt
    simp only [Job.cmp] at hlt
    rcases Nat.lt_trichotomy e.time j.time with h | h | h
    · simp [Nat.compare_eq_lt.mpr h, Ordering.swap] at hlt
    · simp [Nat.compare_eq_eq.mpr h, Ordering.swap] at hlt
    · omega

/-- C6 witness: the ordering evaluated at concrete jobs. -/
theorem job_order_by_time_reversed_witness :
    Job.cmp { type_ := .Once, time := 1, canceled := 0 }
      { type_ := .DynamicRate, time := 2, canceled := 5 } = Ordering.gt ∧
    Job.cmp { type_ := .FixedRate 3, time := 7, canceled := 1 }
      { type_ := .DynamicDelay, time := 7, canceled := 2 } = Ordering.eq := by
  constructor
  · exact (job_order_by_time_reversed _ _).1 (by decide)
  · exact ((job_order_by_time_reversed _ _).2.2.1 (by decide)).1

/-- C8: pool construction fails (the assertion) exactly when the requested
worker count is zero; for every positive count it succeeds with an empty
queue, shutdown false, the given drop policy, and exactly that many worker
threads spawned. -/
theorem new_inner_worker_count_spec (n : Nat) (b : OnPoolDropBehavior) :
    (ScheduledThreadPool.new_inner n b = none ↔ n = 0) ∧
    (1 ≤ n → ScheduledThreadPool.new_inner n b =
      some ({ queue := [], shutdown := false, on_drop_behavior := b }, n)) := by
  constructor
  · unfold ScheduledThreadPool.new_inner
    split <;> simp_all
  · intro h
    unfold ScheduledThreadPool.new_inner
    split
    · omega
    · rfl

/-- C8 witness: construction at counts 0 and 3. -/
theorem new_inner_worker_count_spec_witness :
    (ScheduledThreadPool.new_inner 0 .CompletePendingScheduled = none) ∧
    ScheduledThreadPool.new_inner 3 .DiscardPendingScheduled =
      some ({ queue := [], shutdown := false,
              on_drop_behavior := .DiscardPendingScheduled }, 3) := by
  constructor
  · exact (new_inner_worker_count_spec 0 _).1.mpr rfl
  · exact (new_inner_worker_count_spec 3 _).2 (by decide)

/-- C4: a submission while shutdown is true is silently dropped — the call
returns with the whole shared state unchanged and without notifying, and no
error is produced (the function returns nothing); while shutdown is false
the job is pushed onto the queue and the flag and policy are untouched. -/
theorem shared_pool_run_shutdown_drop (inner : InnerPool) (job : Job) :
    (inner.shutdown = true → SharedPool.run inner job = (inner, false)) ∧
    (inner.shutdown = false →
      (SharedPool.run inner job).1.queue = job :: inner.queue ∧
      (SharedPool.run inner job).1.shutdown = false ∧
      (SharedPool.run inner job).1.on_drop_behavior = inner.on_drop_behavior) := by
  constructor
  · intro h
    simp [SharedPool.run, h]
  · intro h
    simp [SharedPool.run, h]

/-- C4 witness: a concrete post-shutdown submission is dropped and a
pre-shutdown one is enqueued. -/
theorem shared_pool_run_shutdown_drop_witness :
    SharedPool.run
      { queue := [], shutdown := true, on_drop_behavior := .CompletePendingScheduled }
      { type_ := .Once, time := 4, canceled := 0 } =
      ({ queue := [], shutdown := true,
         on_drop_behavior := .CompletePendingScheduled }, false) ∧
    (SharedPool.run
      { queue := [], shutdown := false, on_drop_behavior := .CompletePendingScheduled }
      { type_ := .Once, time := 4, canceled := 0 }).1.queue =
      [{ type_ := .Once, time := 4, canceled := 0 }] := by
  constructor
  · exact (shared_pool_run_shutdown_drop _ _).1 rfl
  · exact ((shared_pool_run_shutdown_drop _ _).2 rfl).1

/-- C7: with shutdown false, a submission calls `notify_all` exactly when
the queue is empty or the new job is due strictly before every queued job
(strictly before the current earliest due time). -/
theorem shared_pool_run_wake_iff (inner : InnerPool) (job : Job)
    (h : inner.shutdown = false) :
    (SharedPool.run inner job).2 = true ↔
      (inner.queue = [] ∨ ∀ e ∈ inner.queue, job.time < e.time) := by
  unfold SharedPool.run
  rw [h]
  simp only [Bool.false_eq_true, if_false]
  cases hq : heapPeek inner.queue with
  | none =>
    simp [heapPeek_none_iff.mp hq]
  | some e =>
    have hne : inner.queue ≠ [] := by
      intro hnil
      rw [hnil] at hq
      simp [heapPeek] at hq
    have hmin := heapPeek_mem_min hq
    simp only [decide_eq_true_eq]
    constructor
    · intro hlt
      right
      intro j hj
      exact Nat.lt_of_lt_of_le hlt (hmin.2 j hj)
    · intro hor
      rcases hor with hnil | hall
      · exact absurd hnil hne
      · exact hall e hmin.1

/-- C7 witness: wake on empty queue and on an earlier job; no wake on a
later job. -/
theorem shared_pool_run_wake_iff_witness :
    ((SharedPool.run
        { queue := [], shutdown := false,
          on_drop_behavior := .CompletePendingScheduled }
        { type_ := .Once, time := 9, canceled := 0 }).2 = true) ∧
    ((SharedPool.run
        { queue := [{ type_ := .Once, time := 5, canceled := 1 }], shutdown := false,
          on_drop_behavior := .CompletePendingScheduled }
        { type_ := .Once, time := 3, canceled := 0 }).2 = true) ∧
    ¬ ((SharedPool.run
        { queue := [{ type_ := .Once, time := 5, canceled := 1 }], shutdown := false,
          on_drop_behavior := .CompletePendingScheduled }
        { type_ := .Once, time := 8, canceled := 0 }).2 = true) := by
  refine ⟨?_, ?_, ?_⟩
  · exact (shared_pool_run_wake_iff _ _ rfl).mpr (Or.inl rfl)
  · exact (shared_pool_run_wake_iff _ _ rfl).mpr (Or.inr (by decide))
  · intro hw
    have h2 := (shared_pool_run_wake_iff _ _ rfl).mp hw
    rcases h2 with hnil | hall
    · simp at hnil
    · have h3 := hall { type_ := .Once, time := 5, canceled := 1 } (by simp)
      simp at h3

theorem applyOp_shutdown_eq (inner : InnerPool) (op : PoolOp)
    (h : op ≠ PoolOp.facadeDrop) : (applyOp inner op).shutdown = inner.shutdown := by
  cases op with
  | submit job =>
    simp only [applyOp, SharedPool.run]
    split
    · rfl
    · rfl
  | facadeDrop => exact absurd rfl h
  | workerPop =>
    simp only [applyOp]
    split
    · rfl
    · rfl

theorem applyOp_shutdown_mono (inner : InnerPool) (op : PoolOp)
    (h : inner.shutdown = true) : (applyOp inner op).shutdown = true := by
  cases op with
  | facadeDrop => rfl
  | submit job => rw [applyOp_shutdown_eq _ _ (by simp)]; exact h
  | workerPop => rw [applyOp_shutdown_eq _ _ (by simp)]; exact h

theorem foldl_applyOp_shutdown_mono (ops : List PoolOp) (inner : InnerPool)
    (h : inner.shutdown = true) : (ops.foldl applyOp inner).shutdown = true := by
  induction ops generalizing inner with
  | nil => exact h
  | cons op ops ih =>
    exact ih (applyOp inner op) (applyOp_shutdown_mono inner op h)

/-- C9: the shutdown flag is false in the state built at construction; the
facade's destructor sets it true and calls `notify_all` without doing
anything else (in particular without waiting for workers); no other
operation changes the flag, so it is monotone and every state reachable
after the destructor has shutdown true. -/
theorem shutdown_flag_monotone (n : Nat) (b : OnPoolDropBehavior)
    (st inner : InnerPool) (workers : Nat) (op : PoolOp) (ops : List PoolOp) :
    (ScheduledThreadPool.new_inner n b = some (st, workers) → st.shutdown = false) ∧
    (ScheduledThreadPool.drop inner = ({ inner with shutdown := true }, true)) ∧
    ((applyOp inner op).shutdown = true → inner.shutdown = true ∨ op = PoolOp.facadeDrop) ∧
    (inner.shutdown = true → (ops.foldl applyOp inner).shutdown = true) ∧
    ((ops.foldl applyOp (applyOp inner PoolOp.facadeDrop)).shutdown = true) := by
  refine ⟨?_, rfl, ?_, ?_, ?_⟩
  · intro h
    unfold ScheduledThreadPool.new_inner at h
    split at h
    · exact absurd h (by simp)
    · rw [Option.some.injEq, Prod.mk.injEq] at h
      rw [← h.1]
  · intro h
    by_cases hop : op = PoolOp.facadeDrop
    · exact Or.inr hop
    · rw [applyOp_shutdown_eq _ _ hop] at h
      exact Or.inl h
  · exact foldl_applyOp_shutdown_mono ops inner
  · exact foldl_applyOp_shutdown_mono ops _ rfl

/-- C9 witness: the theorem's conditional parts evaluated at concrete
inputs. -/
theorem shutdown_flag_monotone_witness :
    (({ queue := [], shutdown := false,
        on_drop_behavior := OnPoolDropBehavior.CompletePendingScheduled } :
        InnerPool).shutdown = false) ∧
    (([PoolOp.workerPop,
       PoolOp.submit { type_ := .Once, time := 2, canceled := 0 }].foldl applyOp
        (applyOp { queue := [], shutdown := false,
                   on_drop_behavior := OnPoolDropBehavior.CompletePendingScheduled }
          PoolOp.facadeDrop)).shutdown = true) ∧
    (([PoolOp.workerPop].foldl applyOp
        { queue := [], shutdown := true,
          on_drop_behavior := OnPoolDropBehavior.CompletePendingScheduled }).shutdown
      = true) := by
  refine ⟨?_, ?_, ?_⟩
  · exact (shutdown_flag_monotone 1 .CompletePendingScheduled _
      { queue := [], shutdown := false,
        on_drop_behavior := .CompletePendingScheduled } 1 .workerPop []).1 rfl
  · exact (shutdown_flag_monotone 1 .CompletePendingScheduled
      { queue := [], shutdown := false, on_drop_behavior := .CompletePendingScheduled }
      { queue := [], shutdown := false, on_drop_behavior := .CompletePendingScheduled }
      1 .workerPop
      [PoolOp.workerPop, PoolOp.submit { type_ := .Once, time := 2, canceled := 0 }]).2.2.2.2
  · exact (shutdown_flag_monotone 1 .CompletePendingScheduled
      { queue := [], shutdown := false, on_drop_behavior := .CompletePendingScheduled }
      { queue := [], shutdown := true, on_drop_behavior := .CompletePendingScheduled }
      1 .workerPop [PoolOp.workerPop]).2.2.2.1 rfl

/-- C3: a job whose cancellation flag reads true at dispatch is discarded
whatever its variant and whatever its closure would have done: nothing is
invoked, nothing is resubmitted, nothing panics. -/
theorem worker_run_job_canceled_discard (flag : Nat → Bool) (tD tC : Nat)
    (res : CallResult) (job : Job) (h : flag tD = true) :
    Worker.run_job flag tD tC res job =
      { invoked := false, resubmit := none, panicked := false } := by
  simp [Worker.run_job, h]

/-- C3 witness: a concrete canceled fixed-rate job is discarded. -/
theorem worker_run_job_canceled_discard_witness :
    Worker.run_job (fun _ => true) 0 7 (.returned none)
      { type_ := .FixedRate 5, time := 3, canceled := 2 } =
      { invoked := false, resubmit := none, panicked := false } :=
  worker_run_job_canceled_discard (fun _ => true) 0 7 (.returned none)
    { type_ := .FixedRate 5, time := 3, canceled := 2 } rfl

/-- C2: for a non-canceled job whose closure returns, the reschedule rule
follows the variant: Once is never resubmitted; FixedRate resubmits at
previous due time + rate (independently of the completion instant);
DynamicRate resubmits at previous due time + returned rate, or not at all
when the closure returns none; FixedDelay resubmits at completion time +
delay; DynamicDelay at completion time + returned delay, or not at all on
none; and every resubmitted job carries the same cancellation token. -/
theorem worker_run_job_reschedule_spec (flag : Nat → Bool) (tD tC : Nat)
    (job : Job) (d : Option Nat) (hflag : flag tD = false) :
    (job.type_ = .Once →
      (Worker.run_job flag tD tC (.returned d) job).resubmit = none) ∧
    (∀ rate, job.type_ = .FixedRate rate →
      (Worker.run_job flag tD tC (.returned d) job).resubmit =
        some { type_ := .FixedRate rate, time := job.time + rate,
               canceled := job.canceled }) ∧
    (∀ r, job.type_ = .DynamicRate →
      (Worker.run_job flag tD tC (.returned (some r)) job).resubmit =
        some { type_ := .DynamicRate, time := job.time + r,
               canceled := job.canceled }) ∧
    (job.type_ = .DynamicRate →
      (Worker.run_job flag tD tC (.returned none) job).resubmit = none) ∧
    (∀ delay, job.type_ = .FixedDelay delay →
      (Worker.run_job flag tD tC (.returned d) job).resubmit =
        some { type_ := .FixedDelay delay, time := tC + delay,
               canceled := job.canceled }) ∧
    (∀ r, job.type_ = .DynamicDelay →
      (Worker.run_job flag tD tC (.returned (some r)) job).resubmit =
        some { type_ := .DynamicDelay, time := tC + r,
               canceled := job.canceled }) ∧
    (job.type_ = .DynamicDelay →
      (Worker.run_job flag tD tC (.returned none) job).resubmit = none) ∧
    (∀ res j', (Worker.run_job flag tD tC res job).resubmit = some j' →
      j'.canceled = job.canceled) := by
  refine ⟨?_, ?_, ?_, ?_, ?_, ?_, ?_, ?_⟩
  · intro h; simp [Worker.run_job, hflag, h]
  · intro rate h; simp [Worker.run_job, hflag, h]
  · intro r h; simp [Worker.run_job, hflag, h]
  · intro h; simp [Worker.run_job, hflag, h]
  · intro delay h; simp [Worker.run_job, hflag, h]
  · intro r h; simp [Worker.run_job, hflag, h]
  · intro h; simp [Worker.run_job, hflag, h]
  · intro res j' hj'
    cases hres : res with
    | panicked =>
      cases htype : job.type_ <;>
        simp [Worker.run_job, hflag, hres, htype] at hj'
    | returned dd =>
      cases htype : job.type_ with
      | Once => simp [Worker.run_job, hflag, hres, htype] at hj'
      | FixedRate rate =>
        simp [Worker.run_job, hflag, hres, htype] at hj'
        rw [← hj']
      | DynamicRate =>
        cases dd with
        | none => simp [Worker.run_job, hflag, hres, htype] at hj'
        | some r =>
          simp [Worker.run_job, hflag, hres, htype] at hj'
          rw [← hj']
      | FixedDelay delay =>
        simp [Worker.run_job, hflag, hres, htype] at hj'
        rw [← hj']
      | DynamicDelay =>
        cases dd with
        | none => simp [Worker.run_job, hflag, hres, htype] at hj'
        | some r =>
          simp [Worker.run_job, hflag, hres, htype] at hj'
          rw [← hj']

/-- C2 witness: the reschedule rule evaluated on concrete jobs of each
variant. -/
theorem worker_run_job_reschedule_spec_witness :
    ((Worker.run_job (fun _ => false) 0 10 (.returned none)
        { type_ := .Once, time := 3, canceled := 1 }).resubmit = none) ∧
    ((Worker.run_job (fun _ => false) 0 10 (.returned none)
        { type_ := .FixedRate 4, time := 3, canceled := 1 }).resubmit =
      some { type_ := .FixedRate 4, time := 7, canceled := 1 }) ∧
    ((Worker.run_job (fun _ => false) 0 10 (.returned (some 6))
        { type_ := .DynamicRate, time := 3, canceled := 1 }).resubmit =
      some { type_ := .DynamicRate, time := 9, canceled := 1 }) ∧
    ((Worker.run_job (fun _ => false) 0 10 (.returned none)
        { type_ := .FixedDelay 4, time := 3, canceled := 1 }).resubmit =
      some { type_ := .FixedDelay 4, time := 14, canceled := 1 }) ∧
    ((Worker.run_job (fun _ => false) 0 10 (.returned (some 6))
        { type_ := .DynamicDelay, time := 3, canceled := 1 }).resubmit =
      some { type_ := .DynamicDelay, time := 16, canceled := 1 }) ∧
    ((Worker.run_job (fun _ => false) 0 10 (.returned none)
        { type_ := .DynamicDelay, time := 3, canceled := 1 }).resubmit = none) := by
  refine ⟨?_, ?_, ?_, ?_, ?_, ?_⟩
  · exact (worker_run_job_reschedule_spec (fun _ => false) 0 10
      { type_ := .Once, time := 3, canceled := 1 } none rfl).1 rfl
  · exact (worker_run_job_reschedule_spec (fun _ => false) 0 10
      { type_ := .FixedRate 4, time := 3, canceled := 1 } none rfl).2.1 4 rfl
  · exact (worker_run_job_reschedule_spec (fun _ => false) 0 10
      { type_ := .DynamicRate, time := 3, canceled := 1 } none rfl).2.2.1 6 rfl
  · exact (worker_run_job_reschedule_spec (fun _ => false) 0 10
      { type_ := .FixedDelay 4, time := 3, canceled := 1 } none rfl).2.2.2.2.1 4 rfl
  · exact (worker_run_job_reschedule_spec (fun _ => false) 0 10
      { type_ := .DynamicDelay, time := 3, canceled := 1 } none rfl).2.2.2.2.2.1 6 rfl
  · exact (worker_run_job_reschedule_spec (fun _ => false) 0 10
      { type_ := .DynamicDelay, time := 3, canceled := 1 } none rfl).2.2.2.2.2.2.1 rfl

/-- C5: a panicking closure is caught at the worker boundary — the loop
produces one outcome per fetched job (it never terminates early), each
dispatch is processed independently of the others, and a dispatch whose
closure panics resubmits nothing, whatever the variant. -/
theorem worker_panic_isolation (ds : List Dispatch) (d : Dispatch) :
    ((Worker.runLoop ds).length = ds.length) ∧
    (Worker.runLoop (d :: ds) = dispatchOutcome d :: Worker.runLoop ds) ∧
    (d.res = .panicked → (dispatchOutcome d).resubmit = none) := by
  refine ⟨?_, rfl, ?_⟩
  · induction ds with
    | nil => rfl
    | cons x xs ih => simp [Worker.runLoop, ih]
  · intro hres
    by_cases hf : d.flag d.tDispatch = true
    · simp [dispatchOutcome, Worker.run_job, hf]
    · have hf' : d.flag d.tDispatch = false := by
        rcases Bool.eq_false_or_eq_true (d.flag d.tDispatch) with h | h
        · exact absurd h hf
        · exact h
      cases htype : d.job.type_ <;>
        simp [dispatchOutcome, Worker.run_job, hf', hres, htype]

/-- C5 witness: a worker trace containing a panicking dispatch followed by
a normal one produces both outcomes, no resubmission from the panicking
one. -/
theorem worker_panic_isolation_witness :
    ((Worker.runLoop
        [{ job := { type_ := .FixedRate 2, time := 0, canceled := 0 },
           flag := fun _ => false, tDispatch := 0, tComplete := 1,
           res := .panicked },
         { job := { type_ := .Once, time := 0, canceled := 1 },
           flag := fun _ => false, tDispatch := 2, tComplete := 3,
           res := .returned none }]).length = 2) ∧
    ((dispatchOutcome
        { job := { type_ := .FixedRate 2, time := 0, canceled := 0 },
          flag := fun _ => false, tDispatch := 0, tComplete := 1,
          res := .panicked }).resubmit = none) := by
  constructor
  · exact (worker_panic_isolation
      [{ job := { type_ := .FixedRate 2, time := 0, canceled := 0 },
         flag := fun _ => false, tDispatch := 0, tComplete := 1,
         res := .panicked },
       { job := { type_ := .Once, time := 0, canceled := 1 },
         flag := fun _ => false, tDispatch := 2, tComplete := 3,
         res := .returned none }]
      { job := { type_ := .Once, time := 0, canceled := 1 },
        flag := fun _ => false, tDispatch := 2, tComplete := 3,
        res := .returned none }).1
  · exact (worker_panic_isolation []
      { job := { type_ := .FixedRate 2, time := 0, canceled := 0 },
        flag := fun _ => false, tDispatch := 0, tComplete := 1,
        res := .panicked }).2.2 rfl

/-- C10: `run_job` reads the cancellation flag only at dispatch — its
outcome is unchanged under any token history agreeing at the dispatch
instant, so a cancellation landing during the closure's execution does not
prevent the successor's resubmission; for a recurring job that is
uncanceled at dispatch the successor is resubmitted with the same token,
and that cancellation takes effect when the successor is itself later
dispatched with the flag set. -/
theorem run_job_no_flag_reread (flag : Nat → Bool) (tD tC : Nat)
    (job : Job) (res : CallResult) :
    (∀ flag' : Nat → Bool, flag' tD = flag tD →
      Worker.run_job flag' tD tC res job = Worker.run_job flag tD tC res job) ∧
    (flag tD = false →
      (((∃ rate, job.type_ = .FixedRate rate) ∨ (∃ dl, job.type_ = .FixedDelay dl)) →
        ∃ j', (Worker.run_job flag tD tC (.returned none) job).resubmit = some j' ∧
          j'.canceled = job.canceled) ∧
      ((job.type_ = .DynamicRate ∨ job.type_ = .DynamicDelay) → ∀ r : Nat,
        ∃ j', (Worker.run_job flag tD tC (.returned (some r)) job).resubmit = some j' ∧
          j'.canceled = job.canceled) ∧
      (∀ j', (Worker.run_job flag tD tC res job).resubmit = some j' →
        ∀ tDd tCc : Nat, ∀ ress : CallResult, flag tDd = true →
          Worker.run_job flag tDd tCc ress j' =
            { invoked := false, resubmit := none, panicked := false })) := by
  constructor
  · intro flag' h
    unfold Worker.run_job
    rw [h]
  · intro hflag
    refine ⟨?_, ?_, ?_⟩
    · rintro (⟨rate, htype⟩ | ⟨dl, htype⟩)
      · exact ⟨{ type_ := .FixedRate rate, time := job.time + rate,
                 canceled := job.canceled },
          by simp [Worker.run_job, hflag, htype], rfl⟩
      · exact ⟨{ type_ := .FixedDelay dl, time := tC + dl,
                 canceled := job.canceled },
          by simp [Worker.run_job, hflag, htype], rfl⟩
    · rintro (htype | htype) r
      · exact ⟨{ type_ := .DynamicRate, time := job.time + r,
                 canceled := job.canceled },
          by simp [Worker.run_job, hflag, htype], rfl⟩
      · exact ⟨{ type_ := .DynamicDelay, time := tC + r,
                 canceled := job.canceled },
          by simp [Worker.run_job, hflag, htype], rfl⟩
    · intro j' hj' tDd tCc ress hset
      simp [Worker.run_job, hset]

/-- C10 witness: a fixed-rate job, uncanceled at dispatch but with the flag
set at every later instant, still resubmits its successor; that successor
is then discarded at its own dispatch. -/
theorem run_job_no_flag_reread_witness :
    (Worker.run_job (fun t => decide (0 < t)) 0 4 (.returned none)
        { type_ := .FixedRate 5, time := 2, canceled := 3 } =
      Worker.run_job (fun _ => false) 0 4 (.returned none)
        { type_ := .FixedRate 5, time := 2, canceled := 3 }) ∧
    (∃ j', (Worker.run_job (fun t => decide (0 < t)) 0 4 (.returned none)
        { type_ := .FixedRate 5, time := 2, canceled := 3 }).resubmit = some j' ∧
      j'.canceled = 3) ∧
    (Worker.run_job (fun t => decide (0 < t)) 7 9 (.returned none)
        { type_ := .FixedRate 5, time := 7, canceled := 3 } =
      { invoked := false, resubmit := none, panicked := false }) := by
  refine ⟨?_, ?_, ?_⟩
  · exact (run_job_no_flag_reread (fun _ => false) 0 4
      { type_ := .FixedRate 5, time := 2, canceled := 3 } (.returned none)).1
      (fun t => decide (0 < t)) rfl
  · exact ((run_job_no_flag_reread (fun t => decide (0 < t)) 0 4
      { type_ := .FixedRate 5, time := 2, canceled := 3 } (.returned none)).2
      rfl).1 (Or.inl ⟨5, rfl⟩)
  · exact ((run_job_no_flag_reread (fun t => decide (0 < t)) 0 4
      { type_ := .FixedRate 5, time := 2, canceled := 3 } (.returned none)).2
      rfl).2.2
      { type_ := .FixedRate 5, time := 7, canceled := 3 }
      (by simp [Worker.run_job]) 7 9 (.returned none) rfl

theorem discard_guard_false (inner : InnerPool)
    (h : ¬(inner.shutdown = true ∧
        inner.on_drop_behavior = OnPoolDropBehavior.DiscardPendingScheduled)) :
    (inner.shutdown &&
      (inner.on_drop_behavior == OnPoolDropBehavior.DiscardPendingScheduled)) = false := by
  rcases Bool.eq_false_or_eq_true inner.shutdown with hs | hs
  · have hb : inner.on_drop_behavior ≠ OnPoolDropBehavior.DiscardPendingScheduled :=
      fun hb => h ⟨hs, hb⟩
    simp [hs, hb]
  · simp [hs]

theorem run_imm_guard_false (inner : InnerPool)
    (h : ¬(inner.shutdown = true ∧
        inner.on_drop_behavior = OnPoolDropBehavior.RunPendingScheduledImmediately)) :
    (inner.shutdown &&
      (inner.on_drop_behavior == OnPoolDropBehavior.RunPendingScheduledImmediately)) = false := by
  rcases Bool.eq_false_or_eq_true inner.shutdown with hs | hs
  · have hb : inner.on_drop_behavior ≠ OnPoolDropBehavior.RunPendingScheduledImmediately :=
      fun hb => h ⟨hs, hb⟩
    simp [hs, hb]
  · simp [hs]

/-- C1: one evaluation of the fetch decision under the lock follows the
source's `match`: empty queue and shutdown terminates with no job; empty
queue without shutdown blocks with no timeout; non-empty queue under
shutdown with the discard policy terminates without popping; non-empty
queue under shutdown with the run-immediately policy pops regardless of due
time; a peeked (earliest) job due at or before `now` pops; otherwise the
worker blocks with a timeout of the remaining time to the earliest due
time, and on wake-up the loop re-evaluates from the start on the newly
observed state and instant. -/
theorem worker_get_job_decision_spec (inner : InnerPool) (now : Nat)
    (rest : List (InnerPool × Nat)) :
    (inner.queue = [] → inner.shutdown = true →
      Worker.get_job_decision inner now = .terminate ∧
      Worker.get_job ((inner, now) :: rest) = some none) ∧
    (inner.queue = [] → inner.shutdown = false →
      Worker.get_job_decision inner now = .wait ∧
      Worker.get_job ((inner, now) :: rest) = Worker.get_job rest) ∧
    (inner.queue ≠ [] → inner.shutdown = true →
      inner.on_drop_behavior = OnPoolDropBehavior.DiscardPendingScheduled →
      Worker.get_job_decision inner now = .terminate ∧
      Worker.get_job ((inner, now) :: rest) = some none) ∧
    (inner.queue ≠ [] → inner.shutdown = true →
      inner.on_drop_behavior = OnPoolDropBehavior.RunPendingScheduledImmediately →
      Worker.get_job_decision inner now = .pop) ∧
    (∀ e, heapPeek inner.queue = some e →
      (e ∈ inner.queue ∧ ∀ j ∈ inner.queue, e.time ≤ j.time) ∧
      (¬(inner.shutdown = true ∧
          inner.on_drop_behavior = OnPoolDropBehavior.DiscardPendingScheduled) →
        e.time ≤ now → Worker.get_job_decision inner now = .pop) ∧
      (¬(inner.shutdown = true ∧
          inner.on_drop_behavior = OnPoolDropBehavior.DiscardPendingScheduled) →
       ¬(inner.shutdown = true ∧
          inner.on_drop_behavior = OnPoolDropBehavior.RunPendingScheduledImmediately) →
        now < e.time →
        Worker.get_job_decision inner now = .waitTimeout (e.time - now) ∧
        Worker.get_job ((inner, now) :: rest) = Worker.get_job rest)) ∧
    (Worker.get_job_decision inner now = .pop →
      Worker.get_job ((inner, now) :: rest) =
        some ((heapPop inner.queue).map (fun p => p.1))) := by
  refine ⟨?_, ?_, ?_, ?_, ?_, ?_⟩
  · intro hq hs
    have hpeek : heapPeek inner.queue = none := by rw [hq]; rfl
    have hdec : Worker.get_job_decision inner now = .terminate := by
      simp [Worker.get_job_decision, hpeek, hs]
    refine ⟨hdec, ?_⟩
    simp only [Worker.get_job]
    rw [hdec]
  · intro hq hs
    have hpeek : heapPeek inner.queue = none := by rw [hq]; rfl
    have hdec : Worker.get_job_decision inner now = .wait := by
      simp [Worker.get_job_decision, hpeek, hs]
    refine ⟨hdec, ?_⟩
    simp only [Worker.get_job]
    rw [hdec]
  · intro hq hs hb
    obtain ⟨e, hpeek⟩ := heapPeek_isSome hq
    have hdec : Worker.get_job_decision inner now = .terminate := by
      simp [Worker.get_job_decision, hpeek, hs, hb]
    refine ⟨hdec, ?_⟩
    simp only [Worker.get_job]
    rw [hdec]
  · intro hq hs hb
    obtain ⟨e, hpeek⟩ := heapPeek_isSome hq
    simp [Worker.get_job_decision, hpeek, hs, hb]
  · intro e hpeek
    refine ⟨heapPeek_mem_min hpeek, ?_, ?_⟩
    · intro hnd htle
      have g1 := discard_guard_false inner hnd
      unfold Worker.get_job_decision
      rw [hpeek]
      simp only [g1, Bool.false_eq_true, if_false]
      split
      · rfl
      · simp [htle]
    · intro hnd hni htime
      have g1 := discard_guard_false inner hnd
      have g2 := run_imm_guard_false inner hni
      have hnotle : ¬ e.time ≤ now := Nat.not_le.mpr htime
      have hdec : Worker.get_job_decision inner now = .waitTimeout (e.time - now) := by
        unfold Worker.get_job_decision
        rw [hpeek]
        simp [g1, g2, hnotle]
      refine ⟨hdec, ?_⟩
      simp only [Worker.get_job]
      rw [hdec]
  · intro hdec
    simp only [Worker.get_job]
    rw [hdec]

/-- C1 witness: the decision evaluated on concrete states for each branch.
The trailing trace entry lets the wait branches show the loop continuing on
the next observation. -/
theorem worker_get_job_decision_spec_witness :
    (Worker.get_job_decision
      { queue := [], shutdown := true,
        on_drop_behavior := .CompletePendingScheduled } 5 = .terminate) ∧
    (Worker.get_job_decision
      { queue := [], shutdown := false,
        on_drop_behavior := .CompletePendingScheduled } 5 = .wait) ∧
    (Worker.get_job_decision
      { queue := [{ type_ := .Once, time := 9, canceled := 0 }], shutdown := true,
        on_drop_behavior := .DiscardPendingScheduled } 5 = .terminate) ∧
    (Worker.get_job_decision
      { queue := [{ type_ := .Once, time := 9, canceled := 0 }], shutdown := true,
        on_drop_behavior := .RunPendingScheduledImmediately } 5 = .pop) ∧
    (Worker.get_job_decision
      { queue := [{ type_ := .Once, time := 4, canceled := 0 }], shutdown := false,
        on_drop_behavior := .CompletePendingScheduled } 5 = .pop) ∧
    (Worker.get_job_decision
      { queue := [{ type_ := .Once, time := 9, canceled := 0 }], shutdown := false,
        on_drop_behavior := .CompletePendingScheduled } 5 = .waitTimeout 4) ∧
    (Worker.get_job
      [({ queue := [{ type_ := .Once, time := 9, canceled := 0 }], shutdown := false,
          on_drop_behavior := .CompletePendingScheduled }, 5),
       ({ queue := [{ type_ := .Once, time := 9, canceled := 0 }], shutdown := false,
          on_drop_behavior := .CompletePendingScheduled }, 9)] =
      some (some { type_ := .Once, time := 9, canceled := 0 })) := by
  refine ⟨?_, ?_, ?_, ?_, ?_, ?_, ?_⟩
  · exact ((worker_get_job_decision_spec _ 5 []).1 rfl rfl).1
  · exact ((worker_get_job_decision_spec _ 5 []).2.1 rfl rfl).1
  · exact ((worker_get_job_decision_spec _ 5 []).2.2.1 (by simp) rfl rfl).1
  · exact (worker_get_job_decision_spec _ 5 []).2.2.2.1 (by simp) rfl rfl
  · exact ((worker_get_job_decision_spec
      { queue := [{ type_ := .Once, time := 4, canceled := 0 }], shutdown := false,
        on_drop_behavior := .CompletePendingScheduled } 5 []).2.2.2.2.1
      { type_ := .Once, time := 4, canceled := 0 } rfl).2.1 (by simp) (by decide)
  · exact (((worker_get_job_decision_spec
      { queue := [{ type_ := .Once, time := 9, canceled := 0 }], shutdown := false,
        on_drop_behavior := .CompletePendingScheduled } 5 []).2.2.2.2.1
      { type_ := .Once, time := 9, canceled := 0 } rfl).2.2 (by simp) (by simp)
      (by decide)).1
  · have hcont := (((worker_get_job_decision_spec
      { queue := [{ type_ := .Once, time := 9, canceled := 0 }], shutdown := false,
        on_drop_behavior := .CompletePendingScheduled } 5
      [({ queue := [{ type_ := .Once, time := 9, canceled := 0 }], shutdown := false,
          on_drop_behavior := .CompletePendingScheduled }, 9)]).2.2.2.2.1
      { type_ := .Once, time := 9, canceled := 0 } rfl).2.2 (by simp) (by simp)
      (by decide)).2
    have hpop := (worker_get_job_decision_spec
      { queue := [{ type_ := .Once, time := 9, canceled := 0 }], shutdown := false,
        on_drop_behavior := .CompletePendingScheduled } 9 []).2.2.2.2.2
      (((worker_get_job_decision_spec
        { queue := [{ type_ := .Once, time := 9, canceled := 0 }], shutdown := false,
          on_drop_behavior := .CompletePendingScheduled } 9 []).2.2.2.2.1
        { type_ := .Once, time := 9, canceled := 0 } rfl).2.1 (by simp) (by decide))
    rw [hcont, hpop]
    rfl
